import Mathlib

set_option linter.unusedVariables false

/- Verification of the autoregressive generation core of this repository
   (src/ChatTTS/model/gpt.py, class GPT_warpper, method generate).

   The batched bookkeeping of generate (gpt.py lines 202-348) is embedded
   as a state machine over per-row functions; the token rows produced by
   torch.multinomial are abstracted into a sampling oracle of type Samp,
   so every theorem about the bookkeeping quantifies over all possible
   sampling outcomes.  The per-step logits pipeline (lines 277-294) is
   embedded separately, at support level: a logit of -inf is modelled by
   the bottom element of WithBot, and softmax followed by
   torch.multinomial is modelled by a draw from the set of non-bottom
   indices, because softmax assigns probability zero exactly to the -inf
   entries and torch.multinomial never returns a zero-probability index
   of a valid distribution. -/

/-- Parameters of one GPT_warpper.generate call (gpt.py lines 185-200).
batch and startIdx are the two leading dimensions of inputs_ids at entry
(start_idx = inputs_ids.shape[1], line 207); num_vq is the codebook count
of the wrapper; eosToken, inferText and maxNewToken are the eponymous
arguments of generate. -/
structure GenParams where
  batch : ℕ
  num_vq : ℕ
  startIdx : ℕ
  eosToken : ℤ
  inferText : Bool
  maxNewToken : ℕ

/-- Mutable loop state of generate: the growing per-row token sequences
(inputs_ids), the per-row emitted-length counters (end_idx, line 207) and
the per-row completion flags (finish, line 208), each indexed by batch
row; a token row is the per-step slice of width num_vq. -/
structure GenState where
  inputsIds : ℕ → List (List ℤ)
  endIdx : ℕ → ℕ
  finish : ℕ → Bool

/-- Sampling oracle: the token row that torch.multinomial produces at a
given step index for a given batch row (idx_next at gpt.py line 294,
after the reshape of line 298 in audio mode; a single-element row in text
mode). -/
abbrev Samp : Type := ℕ → ℕ → List ℤ

/-- Completion test on one sampled row: (idx_next == eos_token).any(1)
(gpt.py lines 299 and 304).  In text mode idx_next has a single column,
so the any(1) reduces to a comparison of that value. -/
def sampledFinish (p : GenParams) (drawn : List ℤ) : Bool :=
  if p.inferText then decide (drawn.headI = p.eosToken)
  else drawn.any fun x => decide (x = p.eosToken)

/-- Row appended to inputs_ids at one step: the sampled row itself in
audio mode (gpt.py line 302), or the single sampled value expanded across
the num_vq columns in text mode (line 307). -/
def appendedRow (p : GenParams) (drawn : List ℤ) : List ℤ :=
  if p.inferText then List.replicate p.num_vq drawn.headI else drawn

/-- One iteration of the generation loop body restricted to the
bookkeeping it mutates (gpt.py lines 294-311): update finish with this
step's sampled row, append the sampled row to every row's sequence, then
end_idx += (~finish).int() using the already-updated finish. -/
def generateStep (p : GenParams) (samp : Samp) (i : ℕ) (s : GenState) : GenState :=
  ⟨fun b => s.inputsIds b ++ [appendedRow p (samp i b)],
   fun b => s.endIdx b + (if s.finish b || sampledFinish p (samp i b) then 0 else 1),
   fun b => s.finish b || sampledFinish p (samp i b)⟩

/-- The batch-wide completion test finish.all() (gpt.py line 327). -/
def allFinish (p : GenParams) (s : GenState) : Bool :=
  (List.range p.batch).all s.finish

/-- The for-loop of generate without streaming (gpt.py lines 221-330):
at most fuel iterations starting from step index i, breaking as soon as
finish.all() holds after a step; returns the final state together with
the number of iterations executed. -/
def generateLoop (p : GenParams) (samp : Samp) : ℕ → ℕ → GenState → GenState × ℕ
  | 0, _, s => (s, 0)
  | fuel+1, i, s =>
    let t := generateStep p samp i s
    if allFinish p t then (t, 1)
    else
      let r := generateLoop p samp fuel (i+1) t
      (r.1, r.2 + 1)

/-- Entry state of a call: the prompt rows, end_idx all zero and finish
all false (gpt.py lines 207-208). -/
def initState (prompt : ℕ → List (List ℤ)) : GenState :=
  ⟨prompt, fun _ => 0, fun _ => false⟩

/-- One full non-streaming loop execution with the max_new_token budget. -/
def generateRun (p : GenParams) (samp : Samp) (prompt : ℕ → List (List ℤ)) :
    GenState × ℕ :=
  generateLoop p samp p.maxNewToken 0 (initState prompt)

/-- State reached after n unconditional iterations of the loop body.  The
loop's actual trajectory is a prefix of this sequence: the loop stops
early only when every row is finished. -/
def genTraj (p : GenParams) (samp : Samp) (prompt : ℕ → List (List ℤ)) : ℕ → GenState
  | 0 => initState prompt
  | n+1 => generateStep p samp n (genTraj p samp prompt n)

/-- Per-row truncation inputs_ids[idx, start_idx : start_idx + end_idx[idx]]
(gpt.py lines 315 and 332). -/
def sliceIds (p : GenParams) (s : GenState) (b : ℕ) : List (List ℤ) :=
  ((s.inputsIds b).drop p.startIdx).take (s.endIdx b)

/-- The ids field of a yielded payload: full codebook rows per batch row
in audio mode, column 0 only in text mode (gpt.py lines 316 and 333). -/
inductive Payload where
  | audio (ids : ℕ → List (List ℤ))
  | text (ids : ℕ → List ℤ)

/-- Payload assembled from a loop state (gpt.py lines 315-316 for the
streaming snapshots, lines 332-333 for the final yield: the same
computation). -/
def mkPayload (p : GenParams) (s : GenState) : Payload :=
  if p.inferText then Payload.text fun b => (sliceIds p s b).map List.headI
  else Payload.audio fun b => sliceIds p s b

/-- Observable result of a non-streaming call: the final payload of
gpt.py line 344 and whether the incomplete-result warning of lines
339-340 fired. -/
structure FinalResult where
  payload : Payload
  warned : Bool

/-- The non-streaming call result: generate never raises on the
incomplete path; it logs the warning exactly when not all rows finished
and still returns the per-row truncated payload. -/
def generateFinal (p : GenParams) (samp : Samp) (prompt : ℕ → List (List ℤ)) :
    FinalResult :=
  ⟨mkPayload p (generateRun p samp prompt).1,
   !allFinish p (generateRun p samp prompt).1⟩

/-- Python truthiness of a tensor: defined only for exactly one element
(nonzero test); any other element count raises RuntimeError.  This is
what bool(end_idx % 24) at gpt.py line 313 does. -/
def tensorTruthy (xs : List ℕ) : Except Unit Bool :=
  match xs with
  | [x] => Except.ok (decide (x ≠ 0))
  | _ => Except.error ()

/-- The stream gate of gpt.py line 313: the condition
end_idx % 24 and not finish.all() evaluates the truthiness of the whole
end_idx % 24 tensor first. -/
def streamGate (p : GenParams) (s : GenState) : Except Unit Bool :=
  tensorTruthy ((List.range p.batch).map fun b => s.endIdx b % 24)

/-- Bookkeeping helper for the recursive streaming loop: a recursive
call that returns normally contributes one more executed iteration, and
an error propagates. -/
def bumpSteps : Except Unit (List Payload × GenState × ℕ) →
    Except Unit (List Payload × GenState × ℕ)
  | Except.error e => Except.error e
  | Except.ok (a, u, m) => Except.ok (a, u, m+1)

/-- The loop of generate with stream=True (gpt.py lines 221-330): after
each step, if the gate is truthy and not every row is finished the yield
is skipped (continue, line 314); otherwise a snapshot payload is yielded
(lines 315-325); the loop still breaks once finish.all() holds (lines
327-329).  Returns the yielded snapshots, the final state and the number
of iterations, or the RuntimeError raised by the gate. -/
def streamLoop (p : GenParams) (samp : Samp) :
    ℕ → ℕ → GenState → List Payload → Except Unit (List Payload × GenState × ℕ)
  | 0, _, s, acc => Except.ok (acc, s, 0)
  | fuel+1, i, s, acc =>
    let t := generateStep p samp i s
    match streamGate p t with
    | Except.error e => Except.error e
    | Except.ok g =>
      if g && !allFinish p t then
        bumpSteps (streamLoop p samp fuel (i+1) t acc)
      else
        if allFinish p t then Except.ok (acc ++ [mkPayload p t], t, 1)
        else bumpSteps (streamLoop p samp fuel (i+1) t (acc ++ [mkPayload p t]))

/-- Every payload a stream=True call yields, in order: the in-loop
snapshots followed by the final payload of gpt.py line 344, which is
yielded in streaming mode as well. -/
def streamRun (p : GenParams) (samp : Samp) (prompt : ℕ → List (List ℤ)) :
    Except Unit (List Payload) :=
  match streamLoop p samp p.maxNewToken 0 (initState prompt) [] with
  | Except.error e => Except.error e
  | Except.ok (acc, s, _) => Except.ok (acc ++ [mkPayload p s])

/-- Emission condition at step k for batch row 0 (the only row when the
batch has size one): 24 divides end_idx after the step, or the whole
batch is finished after the step. -/
def emitCond (p : GenParams) (samp : Samp) (prompt : ℕ → List (List ℤ)) (k : ℕ) : Bool :=
  decide ((genTraj p samp prompt (k+1)).endIdx 0 % 24 = 0) ||
    allFinish p (genTraj p samp prompt (k+1))

/-- Snapshot payload yielded at step k (built from the state after the
step). -/
def snapAt (p : GenParams) (samp : Samp) (prompt : ℕ → List (List ℤ)) (k : ℕ) : Payload :=
  mkPayload p (genTraj p samp prompt (k+1))

/- -------------------- logits pipeline (gpt.py lines 263-294) ------- -/

/-- The logits matrix after the flattening of gpt.py lines 263-268: a
row index (batch row, or batch row times codebook in audio mode) and a
vocabulary index; bottom models a logit of -inf. -/
abbrev Logits := ℕ → ℕ → WithBot ℚ

/-- A user-supplied logits processor or warper: a function of the token
history (logits_token) and the current logits (gpt.py lines 279-283). -/
abbrev LogitsTransform := (ℕ → List ℤ) → Logits → Logits

/-- Sequential application of a list of transforms, exactly the two
for-loops at gpt.py lines 279-283. -/
def applyTransformChain (fs : List LogitsTransform) (hist : ℕ → List ℤ) (l : Logits) :
    Logits :=
  fs.foldl (fun acc f => f hist acc) l

/-- Temperature scaling logits = logits / temperature (gpt.py line 277),
with a per-row temperature. -/
def divideByTemperature (temp : ℕ → ℚ) (l : Logits) : Logits :=
  fun r v => WithBot.map (fun x => x / temp r) (l r v)

/-- End-of-sequence suppression logits[:, eos_token] = -torch.inf,
applied only while i < min_new_token (gpt.py lines 287-288). -/
def suppressEosBelowMin (i minNew eos : ℕ) (l : Logits) : Logits :=
  if i < minNew then fun r v => if v = eos then ⊥ else l r v else l

/-- The complete per-step logits transformation of gpt.py lines 277-288,
transcribed in source order: temperature division, then every processor
in list order, then every warper in list order, then end-of-sequence
suppression below min_new_token. -/
def processLogits (procs warps : List LogitsTransform) (temp : ℕ → ℚ)
    (hist : ℕ → List ℤ) (i minNew eos : ℕ) (raw : Logits) : Logits :=
  let l1 : Logits := fun r v => WithBot.map (fun x => x / temp r) (raw r v)
  let l2 := procs.foldl (fun acc f => f hist acc) l1
  let l3 := warps.foldl (fun acc f => f hist acc) l2
  if i < minNew then fun r v => if v = eos then ⊥ else l3 r v else l3

/-- Support of softmax(logits) over one row: exp is positive on finite
logits and exp(-inf) = 0, so softmax assigns positive probability exactly
to the non-bottom entries. -/
def softmaxSupport (vocab : ℕ) (l : ℕ → WithBot ℚ) : List ℕ :=
  (List.range vocab).filter fun v => decide (l v ≠ ⊥)

/-- Model of torch.multinomial(softmax(logits), num_samples=1) for one
row (gpt.py lines 290-294): the draw always lands inside the softmax
support; rng abstracts the random outcome. -/
def multinomialDrawOne (vocab : ℕ) (l : ℕ → WithBot ℚ) (rng : ℕ) : ℕ :=
  let s := softmaxSupport vocab l
  s.getD (rng % s.length) 0

/-- The sampled index for one row of one step: the pipeline of gpt.py
lines 277-294 ending in the softmax and the multinomial draw of exactly
one index. -/
def sampleNextToken (procs warps : List LogitsTransform) (temp : ℕ → ℚ)
    (hist : ℕ → List ℤ) (i minNew eos vocab : ℕ) (raw : Logits)
    (rng : ℕ → ℕ) (row : ℕ) : ℕ :=
  multinomialDrawOne vocab
    (fun v => processLogits procs warps temp hist i minNew eos raw row v) (rng row)

/- -------------------- attention mask and temperature --------------- -/

/-- The buffer attention_mask_cache (gpt.py lines 213-215): all ones of
width start_idx + max_new_token, with the supplied prompt mask copied
over its first maskLen columns; the loop never writes to it afterwards
(it is only read, at line 225). -/
def attentionMaskCache (p : GenParams) (attention_mask : Option (ℕ → ℕ → Bool))
    (maskLen : ℕ) (b j : ℕ) : Bool :=
  match attention_mask with
  | none => true
  | some m => if j < maskLen then m b j else true

/-- Width of the attention mask buffer per batch row (gpt.py line 213). -/
def attentionMaskCacheLen (p : GenParams) : ℕ := p.startIdx + p.maxNewToken

/-- Effect of gpt.py line 210 on the caller's temperature tensor at
shape level: temperature.unsqueeze_(0) is an in-place operation that
prepends a dimension of size one to the argument tensor object itself
(the subsequent expand/contiguous/view build new tensors, but the
unsqueeze_ has already mutated the caller's tensor). -/
def temperatureShapeAfterGenerate (shape : List ℕ) : List ℕ :=
  1 :: shape

/- -------------------- concrete instances for witnesses ------------- -/

/-- Concrete audio-mode call: batch 1, num_vq 4, prompt length 1, eos
token 0, max_new_token 4. -/
def pEos : GenParams := ⟨1, 4, 1, 0, false, 4⟩

/-- Oracle that samples the end marker on every codebook at every step. -/
def sampEos : Samp := fun _ _ => [0, 0, 0, 0]

/-- A one-row prompt of width 4. -/
def promptOne : ℕ → List (List ℤ) := fun _ => [[1, 1, 1, 1]]

/-- Concrete audio-mode call with one codebook: batch 1, num_vq 1,
prompt length 1, eos token 0, max_new_token 4. -/
def pTwoStep : GenParams := ⟨1, 1, 1, 0, false, 4⟩

/-- Oracle that samples a non-marker token at step 0 and the end marker
from step 1 on. -/
def sampTwoStep : Samp := fun i _ => if i = 0 then [1] else [0]

/-- A one-row prompt of width 1. -/
def promptNarrow : ℕ → List (List ℤ) := fun _ => [[1]]

/-- Oracle that never samples the end marker. -/
def sampNever : Samp := fun _ _ => [1]

/-- Concrete audio-mode call that will exhaust its budget: batch 1,
num_vq 1, prompt length 1, eos token 0, max_new_token 2. -/
def pNever : GenParams := ⟨1, 1, 1, 0, false, 2⟩

/-- Concrete streaming call with two batch rows. -/
def pBatch2 : GenParams := ⟨2, 1, 1, 0, false, 4⟩

/-- Oracle that samples the end marker immediately (single codebook). -/
def sampEosNarrow : Samp := fun _ _ => [0]

/-- All-zero finite logits over any vocabulary. -/
def rawZero : Logits := fun _ _ => ((0 : ℚ) : WithBot ℚ)

/- ==================== helper lemmas ================================ -/

@[simp] theorem generateStep_inputsIds (p : GenParams) (samp : Samp) (i : ℕ)
    (s : GenState) (b : ℕ) :
    (generateStep p samp i s).inputsIds b = s.inputsIds b ++ [appendedRow p (samp i b)] :=
  rfl

@[simp] theorem generateStep_endIdx (p : GenParams) (samp : Samp) (i : ℕ)
    (s : GenState) (b : ℕ) :
    (generateStep p samp i s).endIdx b =
      s.endIdx b + (if s.finish b || sampledFinish p (samp i b) then 0 else 1) :=
  rfl

@[simp] theorem generateStep_finish (p : GenParams) (samp : Samp) (i : ℕ)
    (s : GenState) (b : ℕ) :
    (generateStep p samp i s).finish b = (s.finish b || sampledFinish p (samp i b)) :=
  rfl

@[simp] theorem initState_inputsIds (prompt : ℕ → List (List ℤ)) (b : ℕ) :
    (initState prompt).inputsIds b = prompt b := rfl

@[simp] theorem initState_endIdx (prompt : ℕ → List (List ℤ)) (b : ℕ) :
    (initState prompt).endIdx b = 0 := rfl

@[simp] theorem initState_finish (prompt : ℕ → List (List ℤ)) (b : ℕ) :
    (initState prompt).finish b = false := rfl

theorem genTraj_zero (p : GenParams) (samp : Samp) (prompt : ℕ → List (List ℤ)) :
    genTraj p samp prompt 0 = initState prompt := rfl

theorem genTraj_succ (p : GenParams) (samp : Samp) (prompt : ℕ → List (List ℤ)) (n : ℕ) :
    genTraj p samp prompt (n+1) = generateStep p samp n (genTraj p samp prompt n) := rfl

theorem genTraj_endIdx_le (p : GenParams) (samp : Samp) (prompt : ℕ → List (List ℤ)) :
    ∀ n b, (genTraj p samp prompt n).endIdx b ≤ n := by
  intro n
  induction n with
  | zero => intro b; simp [genTraj_zero]
  | succ n ih =>
    intro b
    have h := ih b
    rw [genTraj_succ, generateStep_endIdx]
    split <;> omega

theorem genTraj_finish_mono (p : GenParams) (samp : Samp) (prompt : ℕ → List (List ℤ))
    (b : ℕ) {n m : ℕ} (hnm : n ≤ m)
    (h : (genTraj p samp prompt n).finish b = true) :
    (genTraj p samp prompt m).finish b = true := by
  induction m, hnm using Nat.le_induction with
  | base => exact h
  | succ m hm ih => rw [genTraj_succ, generateStep_finish, ih]; rfl

theorem genTraj_endIdx_frozen (p : GenParams) (samp : Samp) (prompt : ℕ → List (List ℤ))
    (b : ℕ) {n m : ℕ} (hnm : n ≤ m)
    (h : (genTraj p samp prompt n).finish b = true) :
    (genTraj p samp prompt m).endIdx b = (genTraj p samp prompt n).endIdx b := by
  induction m, hnm using Nat.le_induction with
  | base => rfl
  | succ m hm ih =>
    have hf : (genTraj p samp prompt m).finish b = true :=
      genTraj_finish_mono p samp prompt b hm h
    rw [genTraj_succ, generateStep_endIdx, hf]
    simpa using ih

theorem genTraj_inputs_length (p : GenParams) (samp : Samp)
    (prompt : ℕ → List (List ℤ)) (b : ℕ) :
    ∀ n, ((genTraj p samp prompt n).inputsIds b).length = (prompt b).length + n := by
  intro n
  induction n with
  | zero => rfl
  | succ n ih =>
    rw [genTraj_succ, generateStep_inputsIds, List.length_append, ih]
    simp [Nat.add_assoc]

theorem generateLoop_succ_pos (p : GenParams) (samp : Samp) (fuel i : ℕ) (s : GenState)
    (hfin : allFinish p (generateStep p samp i s) = true) :
    generateLoop p samp (fuel+1) i s = (generateStep p samp i s, 1) := by
  simp [generateLoop, hfin]

theorem generateLoop_succ_neg (p : GenParams) (samp : Samp) (fuel i : ℕ) (s : GenState)
    (hfin : allFinish p (generateStep p samp i s) = false) :
    generateLoop p samp (fuel+1) i s =
      ((generateLoop p samp fuel (i+1) (generateStep p samp i s)).1,
       (generateLoop p samp fuel (i+1) (generateStep p samp i s)).2 + 1) := by
  simp [generateLoop, hfin]

theorem generateLoop_traj (p : GenParams) (samp : Samp) (prompt : ℕ → List (List ℤ)) :
    ∀ fuel i, ∃ msteps, msteps ≤ fuel ∧
      generateLoop p samp fuel i (genTraj p samp prompt i) =
        (genTraj p samp prompt (i + msteps), msteps) := by
  intro fuel
  induction fuel with
  | zero => intro i; exact ⟨0, Nat.le_refl 0, rfl⟩
  | succ fuel ih =>
    intro i
    by_cases hfin : allFinish p (generateStep p samp i (genTraj p samp prompt i)) = true
    · refine ⟨1, by omega, ?_⟩
      rw [generateLoop_succ_pos p samp fuel i _ hfin, ← genTraj_succ]
    · obtain ⟨m, hm, heq⟩ := ih (i+1)
      refine ⟨m+1, by omega, ?_⟩
      rw [generateLoop_succ_neg p samp fuel i _ (Bool.eq_false_iff.mpr hfin),
        ← genTraj_succ, heq]
      have : i + 1 + m = i + (m + 1) := by omega
      rw [this]

theorem generateRun_traj (p : GenParams) (samp : Samp) (prompt : ℕ → List (List ℤ)) :
    ∃ msteps, msteps ≤ p.maxNewToken ∧
      generateRun p samp prompt = (genTraj p samp prompt msteps, msteps) := by
  obtain ⟨m, hm, heq⟩ := generateLoop_traj p samp prompt p.maxNewToken 0
  refine ⟨m, hm, ?_⟩
  rw [generateRun, ← genTraj_zero p samp prompt, heq, Nat.zero_add]

theorem generateLoop_exhaust (p : GenParams) (samp : Samp) :
    ∀ fuel i s, allFinish p (generateLoop p samp fuel i s).1 = false →
      (generateLoop p samp fuel i s).2 = fuel := by
  intro fuel
  induction fuel with
  | zero => intro i s h; rfl
  | succ fuel ih =>
    intro i s h
    by_cases hfin : allFinish p (generateStep p samp i s) = true
    · rw [generateLoop_succ_pos p samp fuel i s hfin] at h
      simp [hfin] at h
    · have hf : allFinish p (generateStep p samp i s) = false := Bool.eq_false_iff.mpr hfin
      rw [generateLoop_succ_neg p samp fuel i s hf] at h ⊢
      simp only []
      rw [ih (i+1) (generateStep p samp i s) h]

/- ==================== claim theorems =============================== -/

/-- C1, counterexample.  The claim predicts that when every row samples
the end marker at step 0 each row's truncated sequence has length 1 with
the marker included; on the code, finish is updated before end_idx is
incremented (gpt.py lines 299-311), so end_idx stays 0 and the truncated
sequence is empty.  Concretely: batch 1, eos 0, the oracle samples the
all-zero row at step 0; the call stops after exactly one step, yet the
truncated length is 0, not 1. -/
theorem eos_at_step_zero_length_one_false :
    sampledFinish pEos (sampEos 0 0) = true ∧
    (generateRun pEos sampEos promptOne).2 = 1 ∧
    decide ((sliceIds pEos (generateRun pEos sampEos promptOne).1 0).length = 1) = false := by
  decide

/-- C1, amended.  If at step 0 every row's sampled row matches the end
marker, the call returns after exactly one loop step, and each row's
end_idx — hence its truncated generated sequence — has length 0: the
marker itself is excluded from the truncation, because generate sets
finish before incrementing end_idx. -/
theorem eos_at_step_zero_truncated_empty (p : GenParams) (samp : Samp)
    (prompt : ℕ → List (List ℤ))
    (hmax : 1 ≤ p.maxNewToken)
    (hfin : ∀ b, b < p.batch → sampledFinish p (samp 0 b) = true) :
    (generateRun p samp prompt).2 = 1 ∧
    ∀ b, b < p.batch →
      (generateRun p samp prompt).1.endIdx b = 0 ∧
      (sliceIds p (generateRun p samp prompt).1 b).length = 0 := by
  obtain ⟨f, hf⟩ : ∃ f, p.maxNewToken = f + 1 := ⟨p.maxNewToken - 1, by omega⟩
  have hall : allFinish p (generateStep p samp 0 (initState prompt)) = true := by
    rw [allFinish]
    rw [List.all_eq_true]
    intro b hb
    rw [generateStep_finish, initState_finish, Bool.false_or]
    exact hfin b (List.mem_range.mp hb)
  have hrun : generateRun p samp prompt = (generateStep p samp 0 (initState prompt), 1) := by
    rw [generateRun, hf, generateLoop_succ_pos p samp f 0 _ hall]
  refine ⟨by rw [hrun], ?_⟩
  intro b hb
  have hend : (generateRun p samp prompt).1.endIdx b = 0 := by
    rw [hrun]
    rw [generateStep_endIdx, initState_endIdx, initState_finish, Bool.false_or,
      hfin b hb]
    rfl
  refine ⟨hend, ?_⟩
  rw [sliceIds, hend]
  simp

/-- C1 witness: the amended statement evaluated on the concrete
eos-at-step-0 call. -/
theorem eos_at_step_zero_truncated_empty_witness :
    (generateRun pEos sampEos promptOne).2 = 1 ∧
    ∀ b, b < pEos.batch →
      (generateRun pEos sampEos promptOne).1.endIdx b = 0 ∧
      (sliceIds pEos (generateRun pEos sampEos promptOne).1 b).length = 0 :=
  eos_at_step_zero_truncated_empty pEos sampEos promptOne (by decide)
    (fun b _ => rfl)

/-- Helper: one-step end_idx recurrence with the updated finish flag as
the guard (definitional consequence of gpt.py lines 299-311). -/
theorem genTraj_endIdx_succ (p : GenParams) (samp : Samp)
    (prompt : ℕ → List (List ℤ)) (n b : ℕ) :
    (genTraj p samp prompt (n+1)).endIdx b =
      (genTraj p samp prompt n).endIdx b +
        (if (genTraj p samp prompt (n+1)).finish b then 0 else 1) :=
  rfl

/-- C2.  Per-row end_idx invariants of the loop: the final value is
bounded by max_new_token; along the trajectory end_idx is non-decreasing;
once the end marker has been sampled for a row (finish true) end_idx is
frozen at its current value for all later steps; while the row is
unfinished end_idx increments by exactly one per step; and at the very
step at which the marker is first sampled end_idx already stops changing
(the increment is skipped because finish is updated first). -/
theorem end_idx_monotone_bounded_frozen (p : GenParams) (samp : Samp)
    (prompt : ℕ → List (List ℤ)) (b n : ℕ) :
    (generateRun p samp prompt).1.endIdx b ≤ p.maxNewToken ∧
    (genTraj p samp prompt n).endIdx b ≤ (genTraj p samp prompt (n+1)).endIdx b ∧
    ((genTraj p samp prompt (n+1)).finish b = true →
      ∀ m, n+1 ≤ m →
        (genTraj p samp prompt m).endIdx b = (genTraj p samp prompt (n+1)).endIdx b) ∧
    ((genTraj p samp prompt (n+1)).finish b = false →
      (genTraj p samp prompt (n+1)).endIdx b = (genTraj p samp prompt n).endIdx b + 1) ∧
    ((genTraj p samp prompt (n+1)).finish b = true ∧
        (genTraj p samp prompt n).finish b = false →
      (genTraj p samp prompt (n+1)).endIdx b = (genTraj p samp prompt n).endIdx b) := by
  refine ⟨?_, ?_, ?_, ?_, ?_⟩
  · obtain ⟨m, hm, heq⟩ := generateRun_traj p samp prompt
    rw [heq]
    exact Nat.le_trans (genTraj_endIdx_le p samp prompt m b) hm
  · rw [genTraj_endIdx_succ]
    exact Nat.le_add_right _ _
  · intro hfin m hm
    exact genTraj_endIdx_frozen p samp prompt b hm hfin
  · intro hfin
    rw [genTraj_endIdx_succ, hfin]
    simp
  · rintro ⟨hfin, _⟩
    rw [genTraj_endIdx_succ, hfin]
    simp

/-- C2 witness: on the concrete call that samples a non-marker row at
step 0 and the marker at step 1, end_idx increments at the unfinished
step and is frozen afterwards. -/
theorem end_idx_monotone_bounded_frozen_witness :
    (genTraj pTwoStep sampTwoStep promptNarrow 1).endIdx 0 =
      (genTraj pTwoStep sampTwoStep promptNarrow 0).endIdx 0 + 1 ∧
    (genTraj pTwoStep sampTwoStep promptNarrow 3).endIdx 0 =
      (genTraj pTwoStep sampTwoStep promptNarrow 2).endIdx 0 :=
  ⟨(end_idx_monotone_bounded_frozen pTwoStep sampTwoStep promptNarrow 0 0).2.2.2.1
      (by decide),
   (end_idx_monotone_bounded_frozen pTwoStep sampTwoStep promptNarrow 0 1).2.2.1
      (by decide) 3 (by decide)⟩

/-- C4.  When the loop exhausts the max_new_token budget with some row
still unfinished, generate does not raise: generateFinal is a total
function of the call's inputs; the warning flag of gpt.py lines 339-340
is set; and every row of the returned payload is truncated to that row's
own end_idx (its length equals the row's emitted length). -/
theorem incomplete_hits_max_token_warns (p : GenParams) (samp : Samp)
    (prompt : ℕ → List (List ℤ))
    (hprompt : ∀ b, b < p.batch → (prompt b).length = p.startIdx)
    (hinc : allFinish p (generateRun p samp prompt).1 = false) :
    (generateRun p samp prompt).2 = p.maxNewToken ∧
    (generateFinal p samp prompt).warned = true ∧
    ∀ b, b < p.batch →
      (sliceIds p (generateRun p samp prompt).1 b).length =
        (generateRun p samp prompt).1.endIdx b := by
  refine ⟨?_, ?_, ?_⟩
  · exact generateLoop_exhaust p samp p.maxNewToken 0 (initState prompt) hinc
  · rw [generateFinal]
    simp only [hinc]
    rfl
  · intro b hb
    obtain ⟨m, hm, heq⟩ := generateRun_traj p samp prompt
    rw [heq]
    rw [sliceIds, List.length_take, List.length_drop]
    rw [genTraj_inputs_length p samp prompt b m, hprompt b hb]
    have h1 : (genTraj p samp prompt m).endIdx b ≤ m :=
      genTraj_endIdx_le p samp prompt m b
    dsimp only
    omega

/-- C4 witness: a concrete call whose oracle never samples the marker,
with a budget of 2 steps. -/
theorem incomplete_hits_max_token_warns_witness :
    (generateRun pNever sampNever promptNarrow).2 = pNever.maxNewToken ∧
    (generateFinal pNever sampNever promptNarrow).warned = true ∧
    ∀ b, b < pNever.batch →
      (sliceIds pNever (generateRun pNever sampNever promptNarrow).1 b).length =
        (generateRun pNever sampNever promptNarrow).1.endIdx b :=
  incomplete_hits_max_token_warns pNever sampNever promptNarrow
    (fun b _ => rfl) (by decide)

/-- C9.  Line 210 of gpt.py calls temperature.unsqueeze_(0), an in-place
mutation of the caller's tensor: after any generate call the caller's
temperature tensor has gained a leading dimension of size one, so the
value passed in is not left unchanged. -/
theorem generate_unsqueezes_temperature_in_place (shape : List ℕ) :
    (temperatureShapeAfterGenerate shape).length = shape.length + 1 ∧
    temperatureShapeAfterGenerate shape ≠ shape := by
  constructor
  · rfl
  · intro h
    have hlen := congrArg List.length h
    rw [temperatureShapeAfterGenerate] at hlen
    simp at hlen

/-- C9 witness: the shape-mutation statement evaluated at a concrete
one-dimensional temperature shape. -/
theorem generate_unsqueezes_temperature_in_place_witness :
    (temperatureShapeAfterGenerate [2]).length = [2].length + 1 ∧
    temperatureShapeAfterGenerate [2] ≠ [2] :=
  generate_unsqueezes_temperature_in_place [2]

/-- Helper: Python truthiness of a tensor with at least two elements is
a RuntimeError. -/
theorem tensorTruthy_two_le (xs : List ℕ) (h : 2 ≤ xs.length) :
    tensorTruthy xs = Except.error () := by
  match xs, h with
  | x :: y :: t, _ => rfl

/-- Helper: with at least two batch rows the stream gate of gpt.py line
313 raises. -/
theorem streamGate_two_le (p : GenParams) (s : GenState) (hb : 2 ≤ p.batch) :
    streamGate p s = Except.error () := by
  rw [streamGate]
  apply tensorTruthy_two_le
  rw [List.length_map, List.length_range]
  exact hb

/-- C10.  For every streaming generate call with batch size at least two
and a positive step budget, the very first evaluation of the truthiness
of the multi-element tensor end_idx % 24 (gpt.py line 313) raises a
RuntimeError instead of emitting or skipping a snapshot, so the call
never completes; streaming completes normally only for batch size one. -/
theorem stream_batch_gt1_raises (p : GenParams) (samp : Samp)
    (prompt : ℕ → List (List ℤ)) (hb : 2 ≤ p.batch) (hmax : 1 ≤ p.maxNewToken) :
    streamRun p samp prompt = Except.error () := by
  obtain ⟨f, hf⟩ : ∃ f, p.maxNewToken = f + 1 := ⟨p.maxNewToken - 1, by omega⟩
  have hloop :
      streamLoop p samp (f+1) 0 (initState prompt) [] = Except.error () := by
    rw [streamLoop]
    rw [streamGate_two_le p _ hb]
  rw [streamRun, hf, hloop]

/-- C10 witness: the concrete two-row streaming call raises. -/
theorem stream_batch_gt1_raises_witness :
    streamRun pBatch2 sampNever promptNarrow = Except.error () :=
  stream_batch_gt1_raises pBatch2 sampNever promptNarrow (by decide) (by decide)

@[simp] theorem bumpSteps_error (e : Unit) :
    bumpSteps (Except.error e) = Except.error e := rfl

@[simp] theorem bumpSteps_ok (a : List Payload) (u : GenState) (m : ℕ) :
    bumpSteps (Except.ok (a, u, m)) = Except.ok (a, u, m+1) := rfl

/-- Helper: with exactly one batch row the stream gate succeeds and
returns the truthiness of end_idx[0] % 24. -/
theorem streamGate_batch1 (p : GenParams) (s : GenState) (hb : p.batch = 1) :
    streamGate p s = Except.ok (decide (s.endIdx 0 % 24 ≠ 0)) := by
  rw [streamGate, hb]
  rfl

/-- Helper: unfolding of one streaming iteration when the gate raises. -/
theorem streamLoop_succ_error (p : GenParams) (samp : Samp) (fuel i : ℕ)
    (s : GenState) (acc : List Payload)
    (hg : streamGate p (generateStep p samp i s) = Except.error ()) :
    streamLoop p samp (fuel+1) i s acc = Except.error () := by
  rw [streamLoop, hg]

/-- Helper: unfolding of one streaming iteration when the gate succeeds. -/
theorem streamLoop_succ_ok (p : GenParams) (samp : Samp) (fuel i : ℕ)
    (s : GenState) (acc : List Payload) (g : Bool)
    (hg : streamGate p (generateStep p samp i s) = Except.ok g) :
    streamLoop p samp (fuel+1) i s acc =
      if g && !allFinish p (generateStep p samp i s) then
        bumpSteps (streamLoop p samp fuel (i+1) (generateStep p samp i s) acc)
      else
        if allFinish p (generateStep p samp i s) then
          Except.ok (acc ++ [mkPayload p (generateStep p samp i s)],
            generateStep p samp i s, 1)
        else
          bumpSteps (streamLoop p samp fuel (i+1) (generateStep p samp i s)
            (acc ++ [mkPayload p (generateStep p samp i s)])) := by
  rw [streamLoop, hg]

/-- Helper: a streaming loop that returns normally went through exactly
the same state evolution and iteration count as the non-streaming loop:
the continue of gpt.py line 314 skips only the yield and the break
check, and the skipped break check cannot fire because the continue
branch requires an unfinished row. -/
theorem streamLoop_ok_state (p : GenParams) (samp : Samp) :
    ∀ fuel i s acc a u m,
      streamLoop p samp fuel i s acc = Except.ok (a, u, m) →
      u = (generateLoop p samp fuel i s).1 ∧ m = (generateLoop p samp fuel i s).2 := by
  intro fuel
  induction fuel with
  | zero =>
    intro i s acc a u m h
    rw [streamLoop] at h
    simp only [Except.ok.injEq, Prod.mk.injEq] at h
    exact ⟨h.2.1.symm, h.2.2.symm⟩
  | succ fuel ih =>
    intro i s acc a u m h
    cases hg : streamGate p (generateStep p samp i s) with
    | error e =>
      rw [streamLoop_succ_error p samp fuel i s acc hg] at h
      simp at h
    | ok g =>
      rw [streamLoop_succ_ok p samp fuel i s acc g hg] at h
      by_cases hc : (g && !allFinish p (generateStep p samp i s)) = true
      · rw [if_pos hc] at h
        have hfin : allFinish p (generateStep p samp i s) = false := by
          have h2 := (Bool.and_eq_true _ _).mp hc
          simpa using h2.2
        cases hr : streamLoop p samp fuel (i+1) (generateStep p samp i s) acc with
        | error e => rw [hr] at h; simp at h
        | ok res =>
          obtain ⟨a', u', m'⟩ := res
          rw [hr, bumpSteps_ok] at h
          simp only [Except.ok.injEq, Prod.mk.injEq] at h
          obtain ⟨ha, hu, hm⟩ := h
          obtain ⟨h1, h2⟩ := ih (i+1) (generateStep p samp i s) acc a' u' m' hr
          rw [generateLoop_succ_neg p samp fuel i s hfin]
          exact ⟨hu ▸ h1, by dsimp only; omega⟩
      · rw [if_neg hc] at h
        by_cases hfin : allFinish p (generateStep p samp i s) = true
        · rw [if_pos hfin] at h
          simp only [Except.ok.injEq, Prod.mk.injEq] at h
          obtain ⟨ha, hu, hm⟩ := h
          rw [generateLoop_succ_pos p samp fuel i s hfin]
          exact ⟨hu.symm, hm.symm⟩
        · rw [if_neg hfin] at h
          have hfin' : allFinish p (generateStep p samp i s) = false :=
            Bool.eq_false_iff.mpr hfin
          cases hr : streamLoop p samp fuel (i+1) (generateStep p samp i s)
              (acc ++ [mkPayload p (generateStep p samp i s)]) with
          | error e => rw [hr] at h; simp at h
          | ok res =>
            obtain ⟨a', u', m'⟩ := res
            rw [hr, bumpSteps_ok] at h
            simp only [Except.ok.injEq, Prod.mk.injEq] at h
            obtain ⟨ha, hu, hm⟩ := h
            obtain ⟨h1, h2⟩ := ih (i+1) (generateStep p samp i s) _ a' u' m' hr
            rw [generateLoop_succ_neg p samp fuel i s hfin']
            exact ⟨hu ▸ h1, by dsimp only; omega⟩

/-- Helper: full characterization of the streaming loop for batch size
one: it never raises, it evolves exactly like the non-streaming loop,
and it yields a snapshot after precisely those iterations whose updated
state satisfies the emission condition. -/
theorem streamLoop_char (p : GenParams) (samp : Samp) (prompt : ℕ → List (List ℤ))
    (hb : p.batch = 1) : ∀ fuel i acc,
    streamLoop p samp fuel i (genTraj p samp prompt i) acc =
      Except.ok
        (acc ++ (((List.range' i (generateLoop p samp fuel i (genTraj p samp prompt i)).2).filter
              (emitCond p samp prompt)).map (snapAt p samp prompt)),
          (generateLoop p samp fuel i (genTraj p samp prompt i)).1,
          (generateLoop p samp fuel i (genTraj p samp prompt i)).2) := by
  intro fuel
  induction fuel with
  | zero =>
    intro i acc
    rw [streamLoop, generateLoop]
    simp
  | succ fuel ih =>
    intro i acc
    have hg : streamGate p (generateStep p samp i (genTraj p samp prompt i)) =
        Except.ok (decide ((genTraj p samp prompt (i+1)).endIdx 0 % 24 ≠ 0)) := by
      rw [← genTraj_succ]
      exact streamGate_batch1 p _ hb
    rw [streamLoop_succ_ok p samp fuel i _ acc _ hg]
    rw [← genTraj_succ p samp prompt i]
    by_cases hfin : allFinish p (genTraj p samp prompt (i+1)) = true
    · have hcond : (decide ((genTraj p samp prompt (i+1)).endIdx 0 % 24 ≠ 0) &&
          !allFinish p (genTraj p samp prompt (i+1))) = false := by
        rw [hfin]
        simp
      have hemit : emitCond p samp prompt i = true := by
        rw [emitCond, hfin]
        simp
      simp only [hcond, Bool.false_eq_true, if_false]
      rw [if_pos hfin]
      rw [generateLoop_succ_pos p samp fuel i _ (genTraj_succ p samp prompt i ▸ hfin)]
      dsimp only
      simp [hemit, snapAt, List.filter_cons]
      exact genTraj_succ p samp prompt i
    · have hfin' : allFinish p (genTraj p samp prompt (i+1)) = false :=
        Bool.eq_false_iff.mpr hfin
      have hloop := generateLoop_succ_neg p samp fuel i (genTraj p samp prompt i)
        (genTraj_succ p samp prompt i ▸ hfin')
      rw [← genTraj_succ p samp prompt i] at hloop
      by_cases h24 : (genTraj p samp prompt (i+1)).endIdx 0 % 24 = 0
      · have hcond : (decide ((genTraj p samp prompt (i+1)).endIdx 0 % 24 ≠ 0) &&
            !allFinish p (genTraj p samp prompt (i+1))) = false := by
          simp [h24]
        have hemit : emitCond p samp prompt i = true := by
          simp [emitCond, h24]
        simp only [hcond, Bool.false_eq_true, if_false]
        rw [if_neg (by rw [hfin']; simp), hloop]
        rw [ih (i+1) (acc ++ [mkPayload p (genTraj p samp prompt (i+1))]), bumpSteps_ok]
        dsimp only
        rw [List.range'_succ]
        simp [hemit, snapAt, List.filter_cons, List.append_assoc]
      · have hcond : (decide ((genTraj p samp prompt (i+1)).endIdx 0 % 24 ≠ 0) &&
            !allFinish p (genTraj p samp prompt (i+1))) = true := by
          rw [hfin']
          simp [h24]
        simp only [hcond, if_true]
        have hemit : emitCond p samp prompt i = false := by
          simp [emitCond, h24, hfin']
        rw [ih (i+1) acc, bumpSteps_ok, hloop]
        dsimp only
        rw [List.range'_succ]
        simp [hemit, List.filter_cons]

/-- C5, counterexample.  The claim quantifies over every streaming
generate call, but with two batch rows the gate of gpt.py line 313
raises before any snapshot can be emitted: here both rows sample the end
marker at step 0, so 24 divides end_idx (it is 0) and the whole batch
has just finished — the claim requires a snapshot — yet the call errors
and emits nothing. -/
theorem stream_snapshot_claim_false_batch2 :
    allFinish pBatch2 (genTraj pBatch2 sampEosNarrow promptNarrow 1) = true ∧
    (genTraj pBatch2 sampEosNarrow promptNarrow 1).endIdx 0 % 24 = 0 ∧
    streamRun pBatch2 sampEosNarrow promptNarrow = Except.error () :=
  ⟨by decide, by decide, rfl⟩

/-- C5, amended.  For every streaming generate call with batch size one
(larger batches raise at the gate, see the counterexample), an in-loop
snapshot is emitted at a step if and only if 24 divides the emitted
count end_idx after that step or the whole batch has just finished, and
each snapshot is the payload of the state after that step — every row
sliced to its current end_idx, which is the frozen value for finished
rows; the loop is followed by the unconditional final yield. -/
theorem stream_snapshot_cadence_batch1 (p : GenParams) (samp : Samp)
    (prompt : ℕ → List (List ℤ)) (hb : p.batch = 1) :
    streamRun p samp prompt =
      Except.ok
        ((((List.range (generateRun p samp prompt).2).filter (emitCond p samp prompt)).map
            (snapAt p samp prompt)) ++
          [mkPayload p (generateRun p samp prompt).1]) := by
  have h := streamLoop_char p samp prompt hb p.maxNewToken 0 []
  rw [genTraj_zero] at h
  simp only [streamRun]
  rw [h]
  simp [generateRun, List.range_eq_range']

/-- C5 witness: the amended statement evaluated on the concrete
single-row call that finishes at step 1. -/
theorem stream_snapshot_cadence_batch1_witness :
    streamRun pTwoStep sampTwoStep promptNarrow =
      Except.ok
        ((((List.range (generateRun pTwoStep sampTwoStep promptNarrow).2).filter
              (emitCond pTwoStep sampTwoStep promptNarrow)).map
            (snapAt pTwoStep sampTwoStep promptNarrow)) ++
          [mkPayload pTwoStep (generateRun pTwoStep sampTwoStep promptNarrow).1]) :=
  stream_snapshot_cadence_batch1 pTwoStep sampTwoStep promptNarrow rfl

/-- C6.  When a streaming call returns normally, the last payload it
yields is the final payload of gpt.py line 344, and it equals the single
payload of the non-streaming call with the same parameters, the same
prompt and the same sampling outcomes (identical seed and chains):
both loops evolve through the same states. -/
theorem stream_final_equals_nonstream (p : GenParams) (samp : Samp)
    (prompt : ℕ → List (List ℤ)) (outs : List Payload)
    (h : streamRun p samp prompt = Except.ok outs) :
    outs.getLast? = some (generateFinal p samp prompt).payload := by
  simp only [streamRun] at h
  cases hs : streamLoop p samp p.maxNewToken 0 (initState prompt) [] with
  | error e =>
    rw [hs] at h
    simp at h
  | ok res =>
    obtain ⟨a, u, m⟩ := res
    rw [hs] at h
    simp only [Except.ok.injEq] at h
    obtain ⟨hu, hm⟩ :=
      streamLoop_ok_state p samp p.maxNewToken 0 (initState prompt) [] a u m hs
    rw [← h, List.getLast?_concat, generateFinal]
    dsimp only
    rw [hu]
    rfl

/-- C6 witness: on the concrete single-row call, the streaming run
returns normally and its last payload is the non-streaming payload. -/
theorem stream_final_equals_nonstream_witness :
    ∃ outs, streamRun pTwoStep sampTwoStep promptNarrow = Except.ok outs ∧
      outs.getLast? = some (generateFinal pTwoStep sampTwoStep promptNarrow).payload :=
  ⟨_, rfl, stream_final_equals_nonstream pTwoStep sampTwoStep promptNarrow _ rfl⟩

/-- C3.  While the step index is below min_new_token, the end-of-sequence
logit is bottom (-inf) after the whole pipeline — the suppression of
gpt.py lines 287-288 runs after the processor and warper chains and
immediately before the softmax — so the softmax gives the marker
probability zero and the multinomial draw can never return it, provided
the distribution is valid (some index keeps positive probability;
otherwise sampling raises, per the degenerate-distribution policy). -/
theorem min_new_token_blocks_eos (procs warps : List LogitsTransform)
    (temp : ℕ → ℚ) (hist : ℕ → List ℤ) (i minNew eos vocab : ℕ)
    (raw : Logits) (rng : ℕ → ℕ) (row : ℕ)
    (hmin : i < minNew)
    (hne : ∃ v, v ∈ softmaxSupport vocab
      (fun v => processLogits procs warps temp hist i minNew eos raw row v)) :
    processLogits procs warps temp hist i minNew eos raw row eos = ⊥ ∧
    sampleNextToken procs warps temp hist i minNew eos vocab raw rng row ≠ eos := by
  have hbot : processLogits procs warps temp hist i minNew eos raw row eos = ⊥ := by
    simp only [processLogits]
    rw [if_pos hmin]
    simp
  refine ⟨hbot, ?_⟩
  intro hcontra
  obtain ⟨v, hv⟩ := hne
  have hpos : 0 < (softmaxSupport vocab
      (fun v => processLogits procs warps temp hist i minNew eos raw row v)).length :=
    List.length_pos.mpr (List.ne_nil_of_mem hv)
  have hmem : sampleNextToken procs warps temp hist i minNew eos vocab raw rng row ∈
      softmaxSupport vocab
        (fun v => processLogits procs warps temp hist i minNew eos raw row v) := by
    simp only [sampleNextToken, multinomialDrawOne]
    rw [List.getD_eq_getElem _ _ (Nat.mod_lt _ hpos)]
    exact List.getElem_mem _
  rw [hcontra, softmaxSupport] at hmem
  have hne2 := (List.mem_filter.mp hmem).2
  simp only [decide_eq_true_eq] at hne2
  exact hne2 hbot

/-- C3 witness: two vocabulary entries, eos 0, step 0 with
min_new_token 1, all-zero raw logits and empty chains: the eos logit is
suppressed to bottom and the draw returns index 1. -/
theorem min_new_token_blocks_eos_witness :
    processLogits [] [] (fun _ => 1) (fun _ => []) 0 1 0 rawZero 0 0 = ⊥ ∧
    sampleNextToken [] [] (fun _ => 1) (fun _ => []) 0 1 0 2 rawZero (fun _ => 0) 0 ≠ 0 :=
  min_new_token_blocks_eos [] [] (fun _ => 1) (fun _ => []) 0 1 0 2 rawZero
    (fun _ => 0) 0 (by decide) ⟨1, by decide⟩

/-- C7.  The per-step sampling of gpt.py lines 277-294, transcribed as
one function in the source's statement order, decomposes as exactly this
fixed pipeline: division by the per-row temperature first, then the
user-supplied processors in list order, then the user-supplied warpers
in list order, then end-of-sequence suppression when the step index is
below min_new_token, and finally the softmax-and-multinomial draw of
exactly one index for the row. -/
theorem logits_pipeline_order (procs warps : List LogitsTransform) (temp : ℕ → ℚ)
    (hist : ℕ → List ℤ) (i minNew eos vocab : ℕ) (raw : Logits) (rng : ℕ → ℕ)
    (row : ℕ) :
    sampleNextToken procs warps temp hist i minNew eos vocab raw rng row =
      multinomialDrawOne vocab
        (fun v => suppressEosBelowMin i minNew eos
          (applyTransformChain warps hist
            (applyTransformChain procs hist
              (divideByTemperature temp raw))) row v)
        (rng row) :=
  rfl

/-- C8.  The attention mask buffer of gpt.py lines 213-215 is built once
before the loop with width start_idx + max_new_token per batch row and
never written afterwards; its value is the supplied prompt mask on the
prompt columns it covers — in particular true wherever that mask is true
— and true at every generated position (hence at every not-yet-finished
generated one), as well as everywhere when no prompt mask is supplied. -/
theorem attention_mask_cache_true_positions (p : GenParams) (m : ℕ → ℕ → Bool)
    (maskLen b j : ℕ) (hlen : maskLen ≤ p.startIdx) :
    (j < maskLen → m b j = true → attentionMaskCache p (some m) maskLen b j = true) ∧
    (p.startIdx ≤ j → j < attentionMaskCacheLen p →
      attentionMaskCache p (some m) maskLen b j = true) ∧
    attentionMaskCache p none maskLen b j = true := by
  refine ⟨?_, ?_, rfl⟩
  · intro hj hm
    show (if j < maskLen then m b j else true) = true
    rw [if_pos hj]
    exact hm
  · intro hj _
    show (if j < maskLen then m b j else true) = true
    rw [if_neg (by omega)]

/-- C8 witness: a width-1 all-true prompt mask inside the concrete
parameters: the buffer is true at the covered prompt position and at a
generated position. -/
theorem attention_mask_cache_true_positions_witness :
    attentionMaskCache pEos (some fun _ _ => true) 1 0 0 = true ∧
    attentionMaskCache pEos (some fun _ _ => true) 1 0 3 = true :=
  ⟨(attention_mask_cache_true_positions pEos (fun _ _ => true) 1 0 0 (by decide)).1
      (by decide) rfl,
   (attention_mask_cache_true_positions pEos (fun _ _ => true) 1 0 3 (by decide)).2.1
      (by decide) (by decide)⟩
